import Mathlib

/-!
Verification of the RoomHub data-access and request layers
(`data.py`, `server.py`) against their specification.

Strings are modelled as `List Char`; database tables as lists of rows;
every data-access function is translated from its Python source.
-/

set_option maxHeartbeats 1000000
set_option linter.unusedVariables false

namespace RoomHub

/-- The character set of Python's default `str.strip` / `str.isspace`
(ASCII whitespace: space, tab, newline, vertical tab, form feed,
carriage return). -/
def isPySpace (c : Char) : Bool :=
  c == ' ' || c == '\t' || c == '\n' || c == Char.ofNat 11 ||
    c == Char.ofNat 12 || c == '\r'

/-- The whitespace-collapsing loop of `create_house` (data.py lines 82-91):
walk the stripped name; on a space emit one space and skip the rest of the
run (the inner `while`); otherwise emit the character. -/
def collapseSpaces : List Char → List Char
  | [] => []
  | c :: rest =>
    if c == ' ' then ' ' :: collapseSpaces (rest.dropWhile (· == ' '))
    else c :: collapseSpaces rest
termination_by l => l.length
decreasing_by
  · exact Nat.lt_succ_of_le (List.dropWhile_sublist _).length_le
  · exact Nat.lt_succ_of_le (Nat.le_refl _)

/-- `house_name.strip()` (data.py line 81): drop the leading whitespace run,
then the trailing one. -/
def pyStrip (l : List Char) : List Char :=
  (l.dropWhile isPySpace).rdropWhile isPySpace

/-- The full house-name normalization performed by `create_house`
(data.py lines 81-91): strip the ends, then collapse internal space runs. -/
def normalize (l : List Char) : List Char :=
  collapseSpaces (pyStrip l)

/-- Structural single-pass equivalent of `collapseSpaces`; the flag records
whether we are inside a space run that has already emitted its space.
Used only to evaluate `collapseSpaces` on concrete inputs by `decide`. -/
def collapseAux : Bool → List Char → List Char
  | _, [] => []
  | inRun, c :: rest =>
    if c == ' ' then
      if inRun then collapseAux true rest else ' ' :: collapseAux true rest
    else c :: collapseAux false rest

/-- No two consecutive spaces, as a chain relation. -/
def NoDoubleSpace (l : List Char) : Prop :=
  l.Chain' fun a b => ¬(a = ' ' ∧ b = ' ')

/-- Python str.isspace (server.py line 128): true iff the string is nonempty
and every character is whitespace. -/
def pyIsSpace (l : List Char) : Bool :=
  !l.isEmpty && l.all isPySpace

/-! ### Relational schema (spec section 6)

users(id, username, email), houses(house_id, house_name),
user_houses(user_id, house_id),
tasks(task_id, task_name, user_id, house_id, added_timestamp, due_date),
restrictions(house_id, user_id, diet_restrictions, schedule_restrictions).
Timestamps are modelled as microsecond counts. house_id is backed by a
serial sequence, modelled by the nextHouseId counter. -/

structure UserRow where
  id : Nat
  username : List Char
  email : List Char
deriving DecidableEq

structure HouseRow where
  house_id : Nat
  house_name : List Char
deriving DecidableEq

structure TaskRow where
  task_id : Nat
  task_name : List Char
  user_id : Nat
  house_id : Nat
  added_timestamp : Nat
  due_date : Nat
deriving DecidableEq

structure RestrictionRow where
  house_id : Nat
  user_id : Nat
  diet_restrictions : List Char
  schedule_restrictions : List Char
deriving DecidableEq

structure DB where
  users : List UserRow
  houses : List HouseRow
  user_houses : List (Nat × Nat)
  tasks : List TaskRow
  restrictions : List RestrictionRow
  nextHouseId : Nat
deriving DecidableEq

/-- check_user_exists (data.py 74-77): SELECT username FROM users WHERE
email = %s, fetchone — the first matching row, or None. -/
def check_user_exists (db : DB) (email : List Char) : Option (List Char) :=
  (db.users.find? fun r => r.email == email).map UserRow.username

/-- get_user_id (data.py 116-119): SELECT id FROM users WHERE email = %s,
fetchone. -/
def get_user_id (db : DB) (user_email : List Char) : Option Nat :=
  (db.users.find? fun r => r.email == user_email).map UserRow.id

/-- check_house_exists (data.py 100-103): SELECT * FROM houses WHERE
house_name = %s, fetchone. -/
def check_house_exists (db : DB) (house_name : List Char) : Option HouseRow :=
  db.houses.find? fun r => r.house_name == house_name

/-- create_house (data.py 80-96): normalize the submitted name (strip the
ends, collapse internal space runs), INSERT the house RETURNING its serial
house_id, then INSERT the creator membership; one committed transaction. -/
def create_house (house_name : List Char) (creator_id : Nat) (db : DB) : DB :=
  let formatted_name := normalize house_name
  let house_id := db.nextHouseId
  { db with
    houses := db.houses ++ [⟨house_id, formatted_name⟩]
    user_houses := db.user_houses ++ [(creator_id, house_id)]
    nextHouseId := house_id + 1 }

/-- add_user_house (data.py 126-128): unconditional INSERT INTO user_houses. -/
def add_user_house (user_id house_id : Nat) (db : DB) : DB :=
  { db with user_houses := db.user_houses ++ [(user_id, house_id)] }

/-- get_house_name_by_id (data.py 178-185): fetchone and return the name,
or None when the id is not found. -/
def get_house_name_by_id (db : DB) (house_id : Nat) : Option (List Char) :=
  (db.houses.find? fun r => r.house_id == house_id).map HouseRow.house_name

/-- The rows of the SQL join in get_house_members (data.py 137-140):
usernames of users joined with user_houses on u.id = uh.user_id,
restricted to the given house. -/
def memberUsernames (db : DB) (house_id : Nat) : List (List Char) :=
  (db.user_houses.filter fun r => r.2 == house_id).flatMap
    fun r => (db.users.filter fun usr => usr.id == r.1).map UserRow.username

/-- get_house_members (data.py 135-141): the joined usernames, or the
sentinel list when the join is empty. -/
def get_house_members (db : DB) (house_id : Nat) : List (List Char) :=
  if (memberUsernames db house_id).isEmpty then ["No members".data]
  else memberUsernames db house_id

/-- is_last_member (data.py 158-162): SELECT COUNT(*) FROM user_houses
WHERE house_id = %s, compared with 1. -/
def is_last_member (db : DB) (house_id : Nat) : Bool :=
  db.user_houses.countP (fun r => r.2 == house_id) == 1

/-- leave_house (data.py 144-151): within one committed transaction, DELETE
the membership, COUNT the remaining memberships of the house, and DELETE
the house row when the count is zero. -/
def leave_house (user_id house_id : Nat) (db : DB) : DB :=
  let uh := db.user_houses.filter fun r => !(r.1 == user_id && r.2 == house_id)
  let count := uh.countP fun r => r.2 == house_id
  if count = 0 then
    { db with
      user_houses := uh
      houses := db.houses.filter fun r => !(r.house_id == house_id) }
  else { db with user_houses := uh }

/-- delete_tasks_by_house (data.py 153-155): DELETE FROM tasks WHERE
house_id = %s, its own committed transaction. -/
def delete_tasks_by_house (house_id : Nat) (db : DB) : DB :=
  { db with tasks := db.tasks.filter fun t => !(t.house_id == house_id) }

/-- delete_restrictions_by_house (data.py 220-223): DELETE FROM restrictions
WHERE house_id = %s, its own committed transaction. -/
def delete_restrictions_by_house (house_id : Nat) (db : DB) : DB :=
  { db with restrictions := db.restrictions.filter fun r => !(r.house_id == house_id) }

/-- delete_house (data.py 164-166 and 198-200): DELETE FROM houses WHERE
house_id = %s. -/
def delete_house (house_id : Nat) (db : DB) : DB :=
  { db with houses := db.houses.filter fun r => !(r.house_id == house_id) }

/-- get_tasks_by_house_id (data.py 225-230): SELECT * FROM tasks WHERE
house_id = %s, fetchall. -/
def get_tasks_by_house_id (db : DB) (house_id : Nat) : List TaskRow :=
  db.tasks.filter fun t => t.house_id == house_id

/-- get_restrictions (data.py 262-265): SELECT * FROM restrictions WHERE
house_id = %s, fetchall. -/
def get_restrictions (db : DB) (house_id : Nat) : List RestrictionRow :=
  db.restrictions.filter fun r => r.house_id == house_id

/-- The POST branch of user_home (server.py 124-137): strip the submitted
name; bounce empty/whitespace-only or over-20-character names; create the
house only when check_house_exists on the stripped (not collapsed) name
finds nothing. -/
def user_home_post (user_id : Nat) (raw : List Char) (db : DB) : DB :=
  let house_name := pyStrip raw
  if pyIsSpace house_name || house_name.isEmpty then db
  else if house_name.length ≤ 20 then
    if (check_house_exists db house_name).isSome then db
    else create_house house_name user_id db
  else db

/-- leave_house_route (server.py 152-168): when the leaver is the last
member, delete the house's tasks and then its restrictions (each a separate
transaction); then run leave_house; then delete the house again if a lone
member remains. -/
def leave_house_route (user_id house_id : Nat) (db : DB) : DB :=
  let db1 :=
    if is_last_member db house_id then
      delete_restrictions_by_house house_id (delete_tasks_by_house house_id db)
    else db
  let db2 := leave_house user_id house_id db1
  if is_last_member db2 house_id then delete_house house_id db2 else db2

/-! ### Connection pool (data.py 26, 38-64) -/

/-- A pool is the list of its free connections, identified by number. -/
structure Pool where
  available : List Nat
deriving DecidableEq

/-- pool.getconn(): hand out a free connection, or fail when exhausted. -/
def getconn (p : Pool) : Except (List Char) (Nat × Pool) :=
  match p.available with
  | [] => .error "connection pool exhausted".data
  | c :: rest => .ok (c, ⟨rest⟩)

/-- pool.putconn(connection): return a connection to the pool. -/
def putconn (c : Nat) (p : Pool) : Pool :=
  ⟨c :: p.available⟩

/-- get_db_connection (data.py 45-51): try: connection = pool.getconn();
yield connection; finally: pool.putconn(connection). A body is any
computation on the connection that ends in a value, an early return, or an
exception (Except.error). When getconn itself fails, nothing was acquired
and the pool is untouched; when it succeeds, the finally block runs
putconn no matter how the body exits. -/
def with_db_connection (body : Nat → Except (List Char) α) (p : Pool) :
    Except (List Char) α × Pool :=
  match getconn p with
  | .error e => (.error e, p)
  | .ok (c, p1) => (body c, putconn c p1)

/-- get_db_cursor (data.py 54-64): open a cursor on the pooled connection,
run the body, commit on success when the flag is set, and close the cursor
in a finally block. Cursor open/close and commit act on the one connection
and leave the pool itself untouched; every data.py operation runs inside
this wrapper. -/
def with_db_cursor (commit : Bool) (body : Nat → Except (List Char) α)
    (p : Pool) : Except (List Char) α × Pool :=
  with_db_connection (fun connection =>
    match body connection with
    | .ok a => .ok a
    | .error e => .error e) p

/-- setup (data.py 38-42): read DATABASE_URL from the environment
(os.environ lookup raises KeyError when absent, modelled as none) and build
ThreadedConnectionPool(1, 100, dsn=DATABASE_URL, sslmode=require). -/
structure PoolConfig where
  minconn : Nat
  maxconn : Nat
  dsn : List Char
deriving DecidableEq

def setup (env : List (List Char × List Char)) : Option PoolConfig :=
  (env.lookup "DATABASE_URL".data).map fun url => ⟨1, 100, url⟩

/-! ### day_rounder (server.py 212-217) -/

/-- A Python datetime: a date (day count) plus time-of-day fields with
their datetime invariants. -/
structure PyDateTime where
  day : Nat
  hour : Nat
  minute : Nat
  second : Nat
  microsecond : Nat
  hour_lt : hour < 24
  minute_lt : minute < 60
  second_lt : second < 60
  microsecond_lt : microsecond < 1000000

/-- t.replace(hour=0, minute=0, second=0, microsecond=0): the midnight
starting t's own day. -/
def floorMidnight (t : PyDateTime) : PyDateTime :=
  ⟨t.day, 0, 0, 0, 0, by omega, by omega, by omega, by omega⟩

/-- The start of the next day: t.replace(hour=0, minute=0, second=0,
microsecond=0) + timedelta(days=1). -/
def ceilMidnight (t : PyDateTime) : PyDateTime :=
  ⟨t.day + 1, 0, 0, 0, 0, by omega, by omega, by omega, by omega⟩

/-- day_rounder (server.py 212-217): round down when the time is before
noon, or exactly noon; otherwise round up to the next midnight. -/
def day_rounder (t : PyDateTime) : PyDateTime :=
  if t.hour < 12 ∨ (t.hour = 12 ∧ t.minute = 0 ∧ t.second = 0 ∧ t.microsecond = 0) then
    ⟨t.day, 0, 0, 0, 0, by omega, by omega, by omega, by omega⟩
  else
    ⟨t.day + 1, 0, 0, 0, 0, by omega, by omega, by omega, by omega⟩

/-- Microseconds elapsed since the midnight starting t's day. -/
def todMicroseconds (t : PyDateTime) : Nat :=
  t.microsecond + 1000000 * (t.second + 60 * (t.minute + 60 * t.hour))

/-- Number of microseconds in a day. -/
def dayMicroseconds : Nat := 86400000000

/-- An input lying exactly at noon. -/
def noonExample : PyDateTime :=
  ⟨5, 12, 0, 0, 0, by omega, by omega, by omega, by omega⟩

/-- An environment that configures a candidate pool-size setting as 5. -/
def envSmallPool : List (List Char × List Char) :=
  [("DATABASE_URL".data, "postgres://db".data),
   ("DB_POOL_MAXCONN".data, "5".data)]

/-- The same environment with the pool-size setting raised to 500. -/
def envLargePool : List (List Char × List Char) :=
  [("DATABASE_URL".data, "postgres://db".data),
   ("DB_POOL_MAXCONN".data, "500".data)]

/-- A small concrete store used to instantiate the read-path claims. -/
def dbReads : DB :=
  ⟨[⟨1, "bob".data, "bob@example.com".data⟩],
   [⟨1, "Maple St".data⟩], [(1, 1)],
   [⟨1, "dishes".data, 1, 1, 0, 0⟩], [], 2⟩

/-- A store with one empty house and one occupied house. -/
def dbMembers : DB :=
  ⟨[⟨1, "alice".data, "alice@example.com".data⟩],
   [⟨1, "Empty House".data⟩, ⟨2, "Full House".data⟩], [(1, 2)], [], [], 3⟩

/-- A store in which house 7's only membership row is (1, 7). -/
def dbJoin : DB :=
  ⟨[⟨1, "alice".data, "alice@example.com".data⟩],
   [⟨7, "Maple St".data⟩], [(1, 7)], [], [], 8⟩

/-- A fresh store holding a single user and no houses. -/
def dbFresh : DB :=
  ⟨[⟨1, "alice".data, "alice@example.com".data⟩], [], [], [], [], 1⟩

/-- A store already holding a house named with the normalized form. -/
def dbOneHouse : DB :=
  ⟨[⟨1, "alice".data, "alice@example.com".data⟩],
   [⟨1, "A B".data⟩], [(1, 1)], [], [], 2⟩

/-- A store whose house 7 has one member, one task and one restriction. -/
def dbLast : DB :=
  ⟨[⟨1, "alice".data, "alice@example.com".data⟩],
   [⟨7, "Maple St".data⟩], [(1, 7)],
   [⟨1, "dishes".data, 1, 7, 0, 0⟩],
   [⟨7, 1, "vegan".data, "mornings".data⟩], 8⟩

/-- The reachable store created by submitting the doubly-spaced name twice
(see the C1 counterexample): two houses share the stored name. -/
def dbDup : DB :=
  ⟨[⟨1, "alice".data, "alice@example.com".data⟩],
   [⟨1, "A B".data⟩, ⟨2, "A B".data⟩], [(1, 1), (1, 2)], [], [], 3⟩

theorem collapseAux_spec : ∀ l : List Char,
    collapseAux false l = collapseSpaces l ∧
    collapseAux true l = collapseSpaces (l.dropWhile (· == ' ')) := by
  intro l
  induction l with
  | nil => exact ⟨by simp [collapseAux, collapseSpaces], by simp [collapseAux, collapseSpaces]⟩
  | cons c rest ih =>
    by_cases h : c = ' '
    · subst h
      exact ⟨by simp [collapseAux, collapseSpaces, ih.2],
        by simp [collapseAux, collapseSpaces, ih.2]⟩
    · exact ⟨by simp [collapseAux, collapseSpaces, ih.1, h],
        by simp [collapseAux, collapseSpaces, ih.1, h]⟩

theorem collapseSpaces_eq_aux (l : List Char) :
    collapseSpaces l = collapseAux false l :=
  (collapseAux_spec l).1.symm

theorem collapseSpaces_nil_iff (l : List Char) :
    collapseSpaces l = [] ↔ l = [] := by
  cases l with
  | nil => simp [collapseSpaces]
  | cons c rest =>
    simp only [collapseSpaces]
    split <;> simp

theorem collapseSpaces_head? (l : List Char) :
    (collapseSpaces l).head? = l.head? := by
  induction l using collapseSpaces.induct with
  | case1 => simp [collapseSpaces]
  | case2 c rest h ih =>
    have hc : c = ' ' := by simpa using h
    subst hc
    simp [collapseSpaces]
  | case3 c rest h ih =>
    have hc : ¬ c = ' ' := by simpa using h
    simp [collapseSpaces, hc]

theorem head?_dropWhile_not (p : Char → Bool) :
    ∀ (l : List Char) (c : Char), (l.dropWhile p).head? = some c → p c = false := by
  intro l
  induction l with
  | nil => intro c hc; simp at hc
  | cons a t ih =>
    intro c hc
    by_cases h : p a
    · rw [List.dropWhile_cons_of_pos h] at hc
      exact ih c hc
    · rw [List.dropWhile_cons_of_neg h] at hc
      simp only [List.head?_cons, Option.some.injEq] at hc
      subst hc
      exact Bool.eq_false_iff.mpr h

theorem getLast?_cons_of_ne_nil (a : Char) (l : List Char) (h : l ≠ []) :
    (a :: l).getLast? = l.getLast? := by
  cases l with
  | nil => exact absurd rfl h
  | cons b t => exact List.getLast?_cons_cons

theorem getLast?_allSpace (l : List Char) (h : ∀ x ∈ l, x = ' ') :
    (' ' :: l).getLast? = some ' ' := by
  induction l with
  | nil => rfl
  | cons a t ih =>
    have ha : a = ' ' := h a (List.mem_cons_self a t)
    subst ha
    rw [List.getLast?_cons_cons]
    exact ih fun x hx => h x (List.mem_cons_of_mem _ hx)

theorem collapseSpaces_getLast? (l : List Char) :
    (collapseSpaces l).getLast? = l.getLast? := by
  induction l using collapseSpaces.induct with
  | case1 => simp [collapseSpaces]
  | case2 c rest h ih =>
    have hc : c = ' ' := by simpa using h
    subst hc
    rw [collapseSpaces, if_pos (by simp)]
    by_cases hr : rest.dropWhile (· == ' ') = []
    · have hall : ∀ x ∈ rest, x = ' ' := by
        have := List.dropWhile_eq_nil_iff.mp hr
        intro x hx
        simpa using this x hx
      rw [hr] at ih ⊢
      rw [show collapseSpaces [] = [] from by simp [collapseSpaces]]
      exact (getLast?_allSpace rest hall).symm
    · have h1 : collapseSpaces (rest.dropWhile (· == ' ')) ≠ [] := by
        simpa [collapseSpaces_nil_iff] using hr
      rw [getLast?_cons_of_ne_nil _ _ h1, ih]
      obtain ⟨pre, hpre⟩ := List.dropWhile_suffix (l := rest) (fun x => x == ' ')
      conv_rhs => rw [← hpre]
      rw [show ' ' :: (pre ++ rest.dropWhile (· == ' ')) =
        (' ' :: pre) ++ rest.dropWhile (· == ' ') from rfl]
      rw [List.getLast?_append_of_ne_nil _ hr]
  | case3 c rest h ih =>
    have hc : ¬ c = ' ' := by simpa using h
    rw [collapseSpaces, if_neg (by simpa using hc)]
    cases rest with
    | nil => rw [show collapseSpaces [] = [] from by simp [collapseSpaces]]
    | cons a t =>
      have h1 : collapseSpaces (a :: t) ≠ [] := by
        simp [collapseSpaces_nil_iff]
      rw [getLast?_cons_of_ne_nil _ _ h1, ih]
      exact (getLast?_cons_of_ne_nil c (a :: t) (by simp)).symm

theorem filter_dropWhile_space (l : List Char) :
    (l.dropWhile (· == ' ')).filter (fun c => !(c == ' ')) =
      l.filter (fun c => !(c == ' ')) := by
  induction l with
  | nil => rfl
  | cons a t ih =>
    by_cases h : a = ' '
    · subst h
      rw [List.dropWhile_cons_of_pos (by simp), ih]
      simp
    · rw [List.dropWhile_cons_of_neg (by simpa using h)]

theorem collapseSpaces_filter (l : List Char) :
    (collapseSpaces l).filter (fun c => !(c == ' ')) =
      l.filter (fun c => !(c == ' ')) := by
  induction l using collapseSpaces.induct with
  | case1 => simp [collapseSpaces]
  | case2 c rest h ih =>
    have hc : c = ' ' := by simpa using h
    subst hc
    rw [collapseSpaces, if_pos (by simp)]
    simp only [List.filter_cons]
    norm_num
    rw [ih, filter_dropWhile_space]
  | case3 c rest h ih =>
    have hc : ¬ c = ' ' := by simpa using h
    rw [collapseSpaces, if_neg (by simpa using hc)]
    simp only [List.filter_cons]
    have : (!(c == ' ')) = true := by simpa using hc
    rw [this]
    simp only [if_true, ih]

theorem collapseSpaces_chain (l : List Char) : NoDoubleSpace (collapseSpaces l) := by
  induction l using collapseSpaces.induct with
  | case1 => simp [collapseSpaces, NoDoubleSpace]
  | case2 c rest h ih =>
    have hc : c = ' ' := by simpa using h
    subst hc
    rw [NoDoubleSpace, collapseSpaces, if_pos (by simp)]
    refine List.chain'_cons'.mpr ⟨?_, ih⟩
    intro y hy
    rw [Option.mem_def, collapseSpaces_head?] at hy
    have := head?_dropWhile_not (· == ' ') rest y hy
    simp only [beq_eq_false_iff_ne, ne_eq] at this
    exact fun hcontra => this hcontra.2
  | case3 c rest h ih =>
    have hc : ¬ c = ' ' := by simpa using h
    rw [NoDoubleSpace, collapseSpaces, if_neg (by simpa using hc)]
    refine List.chain'_cons'.mpr ⟨?_, ih⟩
    intro y _
    exact fun hcontra => hc hcontra.1

theorem collapseSpaces_of_chain (l : List Char) (h : NoDoubleSpace l) :
    collapseSpaces l = l := by
  induction l using collapseSpaces.induct with
  | case1 => simp [collapseSpaces]
  | case2 c rest hb ih =>
    have hc : c = ' ' := by simpa using hb
    subst hc
    have hh := List.chain'_cons'.mp h
    have hdw : rest.dropWhile (· == ' ') = rest := by
      cases rest with
      | nil => rfl
      | cons a t =>
        have := hh.1 a rfl
        have ha : ¬ a = ' ' := fun hcontra => this ⟨rfl, hcontra⟩
        exact List.dropWhile_cons_of_neg (by simpa using ha)
    rw [collapseSpaces, if_pos (by simp), hdw]
    rw [hdw] at ih
    rw [ih hh.2]
  | case3 c rest hb ih =>
    have hc : ¬ c = ' ' := by simpa using hb
    rw [collapseSpaces, if_neg (by simpa using hc)]
    rw [ih (List.chain'_cons'.mp h).2]

theorem pyStrip_head?_not (l : List Char) (c : Char)
    (hc : (pyStrip l).head? = some c) : isPySpace c = false := by
  obtain ⟨t, ht⟩ := List.rdropWhile_prefix (p := isPySpace) (l := l.dropWhile isPySpace)
  apply head?_dropWhile_not isPySpace l c
  rw [← ht]
  cases hs : pyStrip l with
  | nil => rw [hs] at hc; simp at hc
  | cons d r =>
    rw [hs] at hc
    simp only [List.head?_cons, Option.some.injEq] at hc
    subst hc
    rw [pyStrip] at hs
    rw [hs]
    rfl

theorem pyStrip_getLast?_not (l : List Char) (c : Char)
    (hc : (pyStrip l).getLast? = some c) : isPySpace c = false := by
  have hne : pyStrip l ≠ [] := by
    intro h
    rw [h] at hc
    simp at hc
  rw [List.getLast?_eq_getLast _ hne] at hc
  have hlast := List.rdropWhile_last_not isPySpace (l.dropWhile isPySpace) hne
  simp only [Option.some.injEq] at hc
  refine Bool.eq_false_iff.mpr ?_
  rw [← hc]
  exact hlast

theorem pyStrip_eq_self (l : List Char)
    (hh : ∀ c, l.head? = some c → isPySpace c = false)
    (hl : ∀ c, l.getLast? = some c → isPySpace c = false) :
    pyStrip l = l := by
  have hdw : l.dropWhile isPySpace = l := by
    cases l with
    | nil => rfl
    | cons a t =>
      exact List.dropWhile_cons_of_neg
        (by rw [hh a rfl]; exact Bool.false_ne_true)
  rw [pyStrip, hdw]
  rw [List.rdropWhile_eq_self_iff]
  intro hne
  rw [hl (l.getLast hne) (List.getLast?_eq_getLast l hne)]
  exact Bool.false_ne_true

theorem normalize_head?_not (l : List Char) (c : Char)
    (hc : (normalize l).head? = some c) : isPySpace c = false := by
  rw [normalize, collapseSpaces_head?] at hc
  exact pyStrip_head?_not l c hc

theorem normalize_getLast?_not (l : List Char) (c : Char)
    (hc : (normalize l).getLast? = some c) : isPySpace c = false := by
  rw [normalize, collapseSpaces_getLast?] at hc
  exact pyStrip_getLast?_not l c hc

theorem normalize_chain (l : List Char) : NoDoubleSpace (normalize l) :=
  collapseSpaces_chain (pyStrip l)

theorem normalize_idem (l : List Char) : normalize (normalize l) = normalize l := by
  conv_lhs => rw [normalize]
  rw [pyStrip_eq_self (normalize l) (normalize_head?_not l) (normalize_getLast?_not l)]
  exact collapseSpaces_of_chain _ (normalize_chain l)

/-! ### Claim theorems -/

/-- C4: the house-name normalization of create_house trims the ends and
collapses internal space runs: its output has no two consecutive spaces,
no leading or trailing space, keeps every non-space character of the
trimmed name in order, and is idempotent. -/
theorem create_house_normalize_spec (s : List Char) :
    NoDoubleSpace (normalize s) ∧
    (normalize s).head? ≠ some ' ' ∧
    (normalize s).getLast? ≠ some ' ' ∧
    (normalize s).filter (fun c => !(c == ' ')) =
      (pyStrip s).filter (fun c => !(c == ' ')) ∧
    normalize (normalize s) = normalize s := by
  refine ⟨normalize_chain s, ?_, ?_, ?_, normalize_idem s⟩
  · intro hcontra
    have := normalize_head?_not s ' ' hcontra
    simp [isPySpace] at this
  · intro hcontra
    have := normalize_getLast?_not s ' ' hcontra
    simp [isPySpace] at this
  · rw [normalize]
    exact collapseSpaces_filter (pyStrip s)

/-- C4 instantiated at the example of the spec, with the example value
itself. -/
theorem create_house_normalize_spec_witness :
    (NoDoubleSpace (normalize "  Smith   House  ".data) ∧
      (normalize "  Smith   House  ".data).head? ≠ some ' ' ∧
      (normalize "  Smith   House  ".data).getLast? ≠ some ' ' ∧
      (normalize "  Smith   House  ".data).filter (fun c => !(c == ' ')) =
        (pyStrip "  Smith   House  ".data).filter (fun c => !(c == ' ')) ∧
      normalize (normalize "  Smith   House  ".data) =
        normalize "  Smith   House  ".data) ∧
    normalize "  Smith   House  ".data = "Smith House".data := by
  refine ⟨create_house_normalize_spec "  Smith   House  ".data, ?_⟩
  rw [normalize, collapseSpaces_eq_aux]
  decide

/-- C9: day_rounder zeroes the time fields and returns whichever of the two
surrounding midnights is closest, rounding an exact noon down to the
midnight of its own day. -/
theorem day_rounder_nearest (t : PyDateTime) :
    ((day_rounder t).hour = 0 ∧ (day_rounder t).minute = 0 ∧
      (day_rounder t).second = 0 ∧ (day_rounder t).microsecond = 0) ∧
    ((day_rounder t = floorMidnight t ∧
        todMicroseconds t ≤ dayMicroseconds - todMicroseconds t) ∨
      (day_rounder t = ceilMidnight t ∧
        dayMicroseconds - todMicroseconds t < todMicroseconds t)) ∧
    (todMicroseconds t = dayMicroseconds / 2 → day_rounder t = floorMidnight t) := by
  have h1 := t.hour_lt
  have h2 := t.minute_lt
  have h3 := t.second_lt
  have h4 := t.microsecond_lt
  by_cases hc : t.hour < 12 ∨ (t.hour = 12 ∧ t.minute = 0 ∧ t.second = 0 ∧ t.microsecond = 0)
  · rw [day_rounder, if_pos hc]
    refine ⟨⟨rfl, rfl, rfl, rfl⟩, Or.inl ⟨rfl, ?_⟩, fun _ => rfl⟩
    simp only [todMicroseconds, dayMicroseconds]
    omega
  · rw [day_rounder, if_neg hc]
    refine ⟨⟨rfl, rfl, rfl, rfl⟩, Or.inr ⟨rfl, ?_⟩, fun hx => ?_⟩
    · simp only [todMicroseconds, dayMicroseconds]
      omega
    · exfalso
      simp only [todMicroseconds, dayMicroseconds] at hx
      omega

/-- C9 instantiated at an exact-noon input. -/
theorem day_rounder_nearest_witness :
    todMicroseconds noonExample = dayMicroseconds / 2 ∧
    day_rounder noonExample = floorMidnight noonExample :=
  ⟨by decide, (day_rounder_nearest noonExample).2.2 (by decide)⟩

/-- C6: the pooled connection acquired by a data-access operation is
returned to the pool on every exit path of get_db_cursor and
get_db_connection — success, exception, or early return of the body, and
a failed acquisition leaves the pool untouched. -/
theorem connection_returned_on_every_exit {α : Type} (commit : Bool)
    (body : Nat → Except (List Char) α) (p : Pool) :
    (with_db_cursor commit body p).2 = p ∧
    (with_db_connection body p).2 = p := by
  obtain ⟨av⟩ := p
  cases av with
  | nil => exact ⟨rfl, rfl⟩
  | cons c rest => exact ⟨rfl, rfl⟩

/-- C6 instantiated: a committing operation whose body fails, on a pool
with two free connections. -/
theorem connection_returned_on_every_exit_witness :
    (with_db_cursor true
        (fun _ => (.error "constraint violation".data : Except (List Char) Nat)) ⟨[1, 2]⟩).2
        = (⟨[1, 2]⟩ : Pool) ∧
    (with_db_connection
        (fun _ => (.error "constraint violation".data : Except (List Char) Nat)) ⟨[1, 2]⟩).2
        = (⟨[1, 2]⟩ : Pool) :=
  connection_returned_on_every_exit true
    (fun _ => (.error "constraint violation".data : Except (List Char) Nat)) ⟨[1, 2]⟩

/-- C7 counterexample: two environments that configure different pool
bounds produce pools with the identical bounds 1 and 100 — the literals of
data.py line 42 — so the bound is a hardcoded constant, not a
configuration option. -/
theorem setup_ignores_configured_bound :
    envSmallPool ≠ envLargePool ∧
    envSmallPool.lookup "DB_POOL_MAXCONN".data ≠
      envLargePool.lookup "DB_POOL_MAXCONN".data ∧
    (setup envSmallPool).map PoolConfig.maxconn = some 100 ∧
    (setup envLargePool).map PoolConfig.maxconn = some 100 ∧
    (setup envSmallPool).map PoolConfig.minconn = some 1 ∧
    (setup envLargePool).map PoolConfig.minconn = some 1 := by
  decide

/-- C7 amended: setup builds the pool with the hardcoded bounds 1 and 100
for every environment; only the DSN is read from configuration. -/
theorem setup_bounds_hardcoded (env : List (List Char × List Char))
    (p : PoolConfig) (h : setup env = some p) :
    p.minconn = 1 ∧ p.maxconn = 100 := by
  rw [setup] at h
  cases hl : env.lookup "DATABASE_URL".data with
  | none => rw [hl] at h; simp at h
  | some url =>
    rw [hl] at h
    have hp : (⟨1, 100, url⟩ : PoolConfig) = p := by simpa using h
    rw [← hp]
    exact ⟨rfl, rfl⟩

/-- C7 amended claim instantiated at a concrete environment. -/
theorem setup_bounds_hardcoded_witness :
    setup envSmallPool = some ⟨1, 100, "postgres://db".data⟩ ∧
    (1 : Nat) = 1 ∧ (100 : Nat) = 100 :=
  ⟨by decide, setup_bounds_hardcoded envSmallPool ⟨1, 100, "postgres://db".data⟩ (by decide)⟩

/-- C8: a not-found condition on the read paths is an explicit absent
value: unknown email gives none from check_user_exists and get_user_id,
unknown house id gives none from get_house_name_by_id and an empty list
from get_tasks_by_house_id. -/
theorem not_found_is_absent_value (db : DB) (email : List Char) (hid : Nat) :
    ((∀ r ∈ db.users, r.email ≠ email) →
      check_user_exists db email = none ∧ get_user_id db email = none) ∧
    ((∀ r ∈ db.houses, r.house_id ≠ hid) → get_house_name_by_id db hid = none) ∧
    ((∀ t ∈ db.tasks, t.house_id ≠ hid) → get_tasks_by_house_id db hid = []) := by
  refine ⟨fun h => ?_, fun h => ?_, fun h => ?_⟩
  · have hf : db.users.find? (fun r => r.email == email) = none := by
      rw [List.find?_eq_none]
      intro x hx
      simpa using h x hx
    exact ⟨by rw [check_user_exists, hf]; rfl, by rw [get_user_id, hf]; rfl⟩
  · have hf : db.houses.find? (fun r => r.house_id == hid) = none := by
      rw [List.find?_eq_none]
      intro x hx
      simpa using h x hx
    rw [get_house_name_by_id, hf]
    rfl
  · rw [get_tasks_by_house_id, List.filter_eq_nil_iff]
    intro x hx
    simpa using h x hx

/-- C8 instantiated: an unknown email and an unknown house id. -/
theorem not_found_is_absent_value_witness :
    check_user_exists dbReads "zoe@example.com".data = none ∧
    get_user_id dbReads "zoe@example.com".data = none ∧
    get_house_name_by_id dbReads 9 = none ∧
    get_tasks_by_house_id dbReads 9 = [] :=
  ⟨((not_found_is_absent_value dbReads "zoe@example.com".data 9).1 (by decide)).1,
   ((not_found_is_absent_value dbReads "zoe@example.com".data 9).1 (by decide)).2,
   (not_found_is_absent_value dbReads "zoe@example.com".data 9).2.1 (by decide),
   (not_found_is_absent_value dbReads "zoe@example.com".data 9).2.2 (by decide)⟩

/-- C5: get_house_members returns the sentinel list exactly when the house
has no membership rows; with at least one membership row (whose user
exists, as every write assumes valid foreign keys) it returns the joined
username list, which is nonempty, taking the non-sentinel branch. -/
theorem get_house_members_sentinel_spec (db : DB) (h : Nat) :
    (db.user_houses.filter (fun r => r.2 == h) = [] →
      get_house_members db h = ["No members".data]) ∧
    ((∃ r ∈ db.user_houses, r.2 = h ∧ ∃ usr ∈ db.users, usr.id = r.1) →
      get_house_members db h = memberUsernames db h ∧
        memberUsernames db h ≠ []) := by
  constructor
  · intro hnil
    have hm : memberUsernames db h = [] := by
      rw [memberUsernames, hnil]
      rfl
    rw [get_house_members, hm]
    rfl
  · rintro ⟨r, hr, hrh, usr, husr, hid⟩
    have hmemf : r ∈ db.user_houses.filter (fun x => x.2 == h) :=
      List.mem_filter.mpr ⟨hr, by simpa using hrh⟩
    have hmapm : usr.username ∈ (db.users.filter (fun x => x.id == r.1)).map UserRow.username :=
      List.mem_map.mpr ⟨usr, List.mem_filter.mpr ⟨husr, by simpa using hid⟩, rfl⟩
    have hne : memberUsernames db h ≠ [] :=
      List.ne_nil_of_mem (List.mem_flatMap.mpr ⟨r, hmemf, hmapm⟩)
    refine ⟨?_, hne⟩
    rw [get_house_members, if_neg (by simpa [List.isEmpty_iff] using hne)]

/-- C5 instantiated: the empty house yields the sentinel, the occupied
house yields its single member. -/
theorem get_house_members_sentinel_spec_witness :
    get_house_members dbMembers 1 = ["No members".data] ∧
    get_house_members dbMembers 2 = memberUsernames dbMembers 2 ∧
    memberUsernames dbMembers 2 ≠ [] :=
  ⟨(get_house_members_sentinel_spec dbMembers 1).1 (by decide),
   ((get_house_members_sentinel_spec dbMembers 2).2
      ⟨(1, 2), by decide, rfl, ⟨1, "alice".data, "alice@example.com".data⟩, by decide, rfl⟩).1,
   ((get_house_members_sentinel_spec dbMembers 2).2
      ⟨(1, 2), by decide, rfl, ⟨1, "alice".data, "alice@example.com".data⟩, by decide, rfl⟩).2⟩

/-- C10: add_user_house enforces no uniqueness. Starting from a house whose
only membership row is (u, h), adding (u, h) again appends a second
identical row; get_house_members then lists u's username once per row, and
is_last_member counts rows, returning false although the house has a
single distinct member. -/
theorem add_user_house_allows_duplicates (db : DB) (u h : Nat) (n : List Char)
    (hrows : db.user_houses.filter (fun r => r.2 == h) = [(u, h)])
    (husers : (db.users.filter (fun r => r.id == u)).map UserRow.username = [n]) :
    (add_user_house u h db).user_houses = db.user_houses ++ [(u, h)] ∧
    get_house_members (add_user_house u h db) h = [n, n] ∧
    is_last_member (add_user_house u h db) h = false := by
  have huh : (add_user_house u h db).user_houses = db.user_houses ++ [(u, h)] := rfl
  have husers2 : (add_user_house u h db).users = db.users := rfl
  have hmem : memberUsernames (add_user_house u h db) h = [n, n] := by
    rw [memberUsernames, huh, husers2, List.filter_append, hrows]
    rw [show List.filter (fun r => r.2 == h) [(u, h)] = [(u, h)] from by simp]
    simp [husers]
  refine ⟨rfl, ?_, ?_⟩
  · rw [get_house_members, hmem]
    rfl
  · rw [is_last_member, huh, List.countP_append]
    have hcnt : db.user_houses.countP (fun r => r.2 == h) = 1 := by
      rw [List.countP_eq_length_filter, hrows]
      rfl
    rw [hcnt]
    simp [List.countP_cons]

/-- C10 instantiated: alice joins house 7 a second time. -/
theorem add_user_house_allows_duplicates_witness :
    (add_user_house 1 7 dbJoin).user_houses = [(1, 7), (1, 7)] ∧
    get_house_members (add_user_house 1 7 dbJoin) 7 = ["alice".data, "alice".data] ∧
    is_last_member (add_user_house 1 7 dbJoin) 7 = false :=
  ⟨by decide,
   (add_user_house_allows_duplicates dbJoin 1 7 "alice".data (by decide) (by decide)).2.1,
   (add_user_house_allows_duplicates dbJoin 1 7 "alice".data (by decide) (by decide)).2.2⟩

/-- C1 counterexample: the guard checks the submitted name only after
stripping its ends, while the stored name also has internal space runs
collapsed. Submitting the name with a doubled internal space twice — both
submissions trivially normalize to the same string — creates two distinct
house rows with the same stored name. -/
theorem house_uniqueness_check_not_normalized :
    normalize "A  B".data = normalize "A  B".data ∧
    normalize "A  B".data = "A B".data ∧
    (user_home_post 1 "A  B".data (user_home_post 1 "A  B".data dbFresh)).houses =
      [⟨1, "A B".data⟩, ⟨2, "A B".data⟩] := by
  refine ⟨rfl, ?_, ?_⟩
  · rw [normalize, collapseSpaces_eq_aux]
    decide
  · simp only [user_home_post, create_house, normalize, collapseSpaces_eq_aux]
    decide

/-- C1 amended: the existence check of the user_home POST branch is
performed on the stripped (end-trimmed, not collapsed) form of the
submitted name — whenever a house row already carries exactly that
stripped name, no new house is created. -/
theorem user_home_checks_trimmed_form (db : DB) (uid : Nat) (raw : List Char)
    (h : (check_house_exists db (pyStrip raw)).isSome = true) :
    user_home_post uid raw db = db := by
  simp [user_home_post, h]

/-- C1 amended claim instantiated: resubmitting the stored name verbatim
creates nothing. -/
theorem user_home_checks_trimmed_form_witness :
    (check_house_exists dbOneHouse (pyStrip "A B".data)).isSome = true ∧
    user_home_post 1 "A B".data dbOneHouse = dbOneHouse :=
  ⟨by decide, user_home_checks_trimmed_form dbOneHouse 1 "A B".data (by decide)⟩

/-- C2: the leave-house flow of the server route runs delete-tasks,
delete-restrictions, delete-membership (with the conditional house
deletion) as separate committed transactions, so the state right after the
first commit — tasks gone, but membership, house and restrictions intact —
is a durable partial state that any reader can observe and that remains if
the flow fails before the next statement. -/
theorem leave_house_flow_partial_state :
    is_last_member dbLast 7 = true ∧
    get_tasks_by_house_id (delete_tasks_by_house 7 dbLast) 7 = [] ∧
    (delete_tasks_by_house 7 dbLast).user_houses = [(1, 7)] ∧
    check_house_exists (delete_tasks_by_house 7 dbLast) "Maple St".data =
      some ⟨7, "Maple St".data⟩ ∧
    get_restrictions (delete_tasks_by_house 7 dbLast) 7 =
      [⟨7, 1, "vegan".data, "mornings".data⟩] := by
  decide

/-- C3 counterexample: user 1 is the last remaining member of house 1; after
the leave-house flow completes, house 1's row, tasks and restrictions are
gone, yet check_house_exists for house 1's name still returns a row,
because a second house (id 2) carries the same stored name. -/
theorem leave_house_existence_by_name_cex :
    dbDup = user_home_post 1 "A  B".data (user_home_post 1 "A  B".data dbFresh) ∧
    dbDup.user_houses.filter (fun r => r.2 == 1) = [(1, 1)] ∧
    ⟨1, "A B".data⟩ ∈ dbDup.houses ∧
    (∀ r ∈ (leave_house_route 1 1 dbDup).houses, r.house_id ≠ 1) ∧
    check_house_exists (leave_house_route 1 1 dbDup) "A B".data =
      some ⟨2, "A B".data⟩ := by
  refine ⟨?_, by decide, by decide, by decide, by decide⟩
  simp only [user_home_post, create_house, normalize, collapseSpaces_eq_aux]
  decide

/-- C3 amended: after the last remaining member of house h runs the
leave-house flow, h's row is gone, and its tasks and restrictions read
back empty; check_house_exists for h's name returns the absent value
provided no other house row carries that name. -/
theorem leave_house_last_member_cascade (db : DB) (u h : Nat)
    (hmem : db.user_houses.filter (fun r => r.2 == h) = [(u, h)]) :
    (∀ r ∈ (leave_house_route u h db).houses, r.house_id ≠ h) ∧
    get_tasks_by_house_id (leave_house_route u h db) h = [] ∧
    get_restrictions (leave_house_route u h db) h = [] ∧
    (∀ nm, (∀ r ∈ db.houses, r.house_name = nm → r.house_id = h) →
      check_house_exists (leave_house_route u h db) nm = none) := by
  have hcnt1 : db.user_houses.countP (fun r => r.2 == h) = 1 := by
    rw [List.countP_eq_length_filter, hmem]
    rfl
  have honly : ∀ a ∈ db.user_houses, (a.2 == h) = true → a = (u, h) := by
    intro a ha hah
    have hin : a ∈ db.user_houses.filter (fun r => r.2 == h) :=
      List.mem_filter.mpr ⟨ha, hah⟩
    rw [hmem] at hin
    simpa using hin
  have hcnt0 : (db.user_houses.filter fun r =>
      !(r.1 == u && r.2 == h)).countP (fun r => r.2 == h) = 0 := by
    rw [List.countP_eq_length_filter]
    have hnil : (db.user_houses.filter fun r =>
        !(r.1 == u && r.2 == h)).filter (fun r => r.2 == h) = [] := by
      rw [List.filter_eq_nil_iff]
      intro a ha
      obtain ⟨hal, hnu⟩ := List.mem_filter.mp ha
      intro hah
      have := honly a hal hah
      subst this
      simp at hnu
    rw [hnil]
    rfl
  have hroute : leave_house_route u h db = DB.mk db.users
      (db.houses.filter fun r => !(r.house_id == h))
      (db.user_houses.filter fun r => !(r.1 == u && r.2 == h))
      (db.tasks.filter fun t => !(t.house_id == h))
      (db.restrictions.filter fun r => !(r.house_id == h))
      db.nextHouseId := by
    have hone : ((1 : Nat) == 1) = true := rfl
    have hzero : ((0 : Nat) == 1) = false := rfl
    simp only [leave_house_route, leave_house, is_last_member,
      delete_tasks_by_house, delete_restrictions_by_house, delete_house,
      hcnt1, hcnt0, hone, hzero, eq_self_iff_true, if_true,
      Bool.false_eq_true, if_false]
  refine ⟨?_, ?_, ?_, ?_⟩
  · intro r hr
    rw [hroute] at hr
    have := (List.mem_filter.mp hr).2
    simpa using this
  · rw [get_tasks_by_house_id, hroute]
    rw [List.filter_eq_nil_iff]
    intro a ha
    have := (List.mem_filter.mp ha).2
    simpa using this
  · rw [get_restrictions, hroute]
    rw [List.filter_eq_nil_iff]
    intro a ha
    have := (List.mem_filter.mp ha).2
    simpa using this
  · intro nm hnm
    rw [check_house_exists, hroute]
    rw [List.find?_eq_none]
    intro r hr
    obtain ⟨hrdb, hrid⟩ := List.mem_filter.mp hr
    intro hname
    have hidh : r.house_id = h := hnm r hrdb (by simpa using hname)
    rw [hidh] at hrid
    simp at hrid

/-- C3 amended claim instantiated: the last member leaves dbLast's single
house and every read returns empty or absent. -/
theorem leave_house_last_member_cascade_witness :
    dbLast.user_houses.filter (fun r => r.2 == 7) = [(1, 7)] ∧
    get_tasks_by_house_id (leave_house_route 1 7 dbLast) 7 = [] ∧
    get_restrictions (leave_house_route 1 7 dbLast) 7 = [] ∧
    check_house_exists (leave_house_route 1 7 dbLast) "Maple St".data = none :=
  ⟨by decide,
   (leave_house_last_member_cascade dbLast 1 7 (by decide)).2.1,
   (leave_house_last_member_cascade dbLast 1 7 (by decide)).2.2.1,
   (leave_house_last_member_cascade dbLast 1 7 (by decide)).2.2.2
     "Maple St".data (by decide)⟩

end RoomHub
